import Mathlib

/-!
Verification development for the Crowd-Sonic renderer core
(`src/CrowdSonic/src/renderer/components/CanvasViewport.tsx` and
`src/CrowdSonic/src/renderer/services/api.ts`).

The TypeScript code is shallowly embedded: JavaScript numbers that only ever
hold exact decimal/integer values are modelled as `ℚ` (with `Int.floor` for
`Math.floor`), JS integer indices as `ℤ`, arrays as lists, and the mutable
refs of the React component as fields of explicit state records threaded
through step functions.  Stages performed by external libraries (`atob`,
`pako.inflate`) are represented by their observable outcomes.
-/

namespace CrowdSonic

/-- Per-chart frequency-range settings (`VisualizationSettings` in
`CanvasViewport.tsx`): `{ minFreqKHz, maxFreqKHz }`. -/
structure VisualizationSettings where
  minFreqKHz : ℚ
  maxFreqKHz : ℚ
deriving DecidableEq, Repr

/-- The part of an incoming `FFTFrame` that the renderers consume after
decompression: the sample rate, the decoded magnitude array (dB values) and
the reported peak frequency in Hz. -/
structure Frame where
  sampleRate : ℚ
  fftData : List ℚ
  peakFrequencyHz : ℚ
deriving DecidableEq, Repr

/-- `freqStep = (sampleRate / 2) / fftData.length` — the width in Hz of one
frequency bin (`renderFrequencySpectrum` / `renderSpectrogram`). -/
def freqStep (f : Frame) : ℚ :=
  (f.sampleRate / 2) / (f.fftData.length : ℚ)

/-- `minFreqIndex = Math.max(0, Math.floor((MIN_FREQ_KHZ * 1000) / freqStep))`. -/
def minFreqIndex (s : VisualizationSettings) (f : Frame) : ℤ :=
  max 0 ⌊(s.minFreqKHz * 1000) / freqStep f⌋

/-- `maxFreqIndex = Math.min(fftData.length, Math.floor((MAX_FREQ_KHZ * 1000) / freqStep))`. -/
def maxFreqIndex (s : VisualizationSettings) (f : Frame) : ℤ :=
  min (f.fftData.length : ℤ) ⌊(s.maxFreqKHz * 1000) / freqStep f⌋

/-- `freqBinCount = maxFreqIndex - minFreqIndex` (`renderSpectrogram`).
This is a plain JS subtraction, so it can be negative. -/
def freqBinCount (s : VisualizationSettings) (f : Frame) : ℤ :=
  maxFreqIndex s f - minFreqIndex s f

/-- `Array.prototype.slice(start, end)` for the index values produced above:
`start` is always `≥ 0` and `end ≤ length`; when `start ≥ end` the result is
empty. -/
def jsSlice (l : List ℚ) (start stop : ℤ) : List ℚ :=
  (l.take stop.toNat).drop start.toNat

/-- `waterfallHeight` — number of time slices kept (`useState(200)`). -/
def waterfallHeight : ℕ := 200

/-- The two waterfall refs of the component: `waterfallDataRef` (rows of dB
values, oldest at index 0) and `waterfallFreqBinsRef` (the recorded width,
a JS number that starts at `0` and stores the last `freqBinCount`). -/
structure WaterfallState where
  data : List (List ℚ)
  freqBins : ℤ
deriving DecidableEq, Repr

/-- `Array(waterfallHeight).fill(null).map(() => Array(freqBinCount).fill(-100))`.
`Array(n)` throws a `RangeError` for a negative `n`, which we model as
`none`; otherwise the buffer is `waterfallHeight` rows of `count` cells all
at the `-100` dB floor. -/
def allocWaterfall (count : ℤ) : Option (List (List ℚ)) :=
  if count < 0 then none
  else some (List.replicate waterfallHeight (List.replicate count.toNat (-100)))

/-- The new bottom row: `Array.from(fftData.slice(minFreqIndex, maxFreqIndex))`. -/
def sliceMags (s : VisualizationSettings) (f : Frame) : List ℚ :=
  jsSlice f.fftData (minFreqIndex s f) (maxFreqIndex s f)

/-- The buffer-mutation part of `renderSpectrogram`, as a function from the
waterfall refs to their next value.  `none` models an exception escaping the
function (the failed `Array(freqBinCount)` allocation), in which case the
refs keep their previous values.  The shift loop
`for (i = 1; i < waterfallHeight; i++) data[i-1] = data[i]; data[waterfallHeight-1] = newRow`
is rendered as `data.drop 1 ++ [newRow]`, its effect on the length-`waterfallHeight`
buffers that the allocation branch produces (the only buffers the component
ever creates).  A frame whose decoded data is empty returns before touching
the buffer (the decode guard at the top of `renderSpectrogram`). -/
def renderSpectrogramStep (s : VisualizationSettings) (st : WaterfallState)
    (f : Frame) : Option WaterfallState :=
  if f.fftData.length = 0 then some st
  else
    let count := freqBinCount s f
    if st.data.length = 0 ∨ st.freqBins ≠ count then
      match allocWaterfall count with
      | none => none
      | some rows => some { data := rows, freqBins := count }
    else
      some { st with data := st.data.drop 1 ++ [sliceMags s f] }

/-- One frame arrival as seen from the stream handler: the exception thrown
by a failed allocation is caught by the `onmessage` wrapper in `api.ts`, so
the refs simply keep their old values. -/
def waterfallCatchStep (s : VisualizationSettings) (st : WaterfallState)
    (f : Frame) : WaterfallState :=
  (renderSpectrogramStep s st f).getD st

/-- The initial values of the two refs: `waterfallDataRef = []`,
`waterfallFreqBinsRef = 0`. -/
def initialWaterfall : WaterfallState := ⟨[], 0⟩

/-- A whole session of spectrogram frames; the committed settings may change
between frames, so each event carries the settings in force when the frame
arrived. -/
def runWaterfall (evts : List (VisualizationSettings × Frame)) : WaterfallState :=
  evts.foldl (fun st e => waterfallCatchStep e.1 st e.2) initialWaterfall

/-! ### Frame decompression (`decompressFFTData`)

`decompressFFTData` runs `atob`, then `pako.inflate`, then
`new Float32Array(decompressed.buffer)` inside one `try`, returning `null`
on any exception.  The two external stages are represented by their
outcomes; the final stage is deterministic: the `Float32Array` constructor
throws a `RangeError` when the byte length is not a multiple of 4, and
otherwise reinterprets each 4-byte group as one 32-bit sample (represented
here by its little-endian bit pattern). -/

/-- Outcome of `atob(compressedData)`: a thrown `InvalidCharacterError` for
malformed base64, or the decoded bytes. -/
inductive AtobResult
  | failure
  | ok (bytes : List ℕ)
deriving DecidableEq, Repr

/-- Outcome of `pako.inflate(bytes)`: a thrown inflate error, or the
decompressed bytes. -/
inductive InflateResult
  | failure
  | ok (bytes : List ℕ)
deriving DecidableEq, Repr

/-- A compressed payload, described by what the two library stages do
with it. -/
structure CompressedPayload where
  atob : AtobResult
  inflate : InflateResult
deriving DecidableEq, Repr

/-- `new Float32Array(buffer)` on a buffer whose byte length is a multiple
of 4: each consecutive 4-byte group becomes one element, represented by its
little-endian 32-bit pattern. -/
def f32words : List ℕ → List ℕ
  | b0 :: b1 :: b2 :: b3 :: rest =>
      (b0 + 256 * b1 + 65536 * b2 + 16777216 * b3) :: f32words rest
  | _ => []

/-- `decompressFFTData` (`CanvasViewport.tsx`): `none` models the `catch`
branch returning `null`. -/
def decompressFFTData (p : CompressedPayload) : Option (List ℕ) :=
  match p.atob with
  | .failure => none
  | .ok _ =>
    match p.inflate with
    | .failure => none
    | .ok bytes =>
        if bytes.length % 4 = 0 then some (f32words bytes) else none

/-- The guard in `renderFrequencySpectrum`:
`if (fftData && fftData.length > 0)` — the spectrum line is drawn only when
decode produced a non-null, non-empty array. -/
def spectrumDrawsData (p : CompressedPayload) : Bool :=
  match decompressFFTData p with
  | none => false
  | some l => l.length != 0

/-- The guard in `renderSpectrogram`:
`if (!fftData || fftData.length === 0) return` — the waterfall buffer is
touched only when decode produced a non-null, non-empty array. -/
def spectrogramConsumesFrame (p : CompressedPayload) : Bool :=
  match decompressFFTData p with
  | none => false
  | some l => l.length != 0

/-! ### Spectrum rendering (`renderFrequencySpectrum`) -/

/-- `const step = Math.max(1, Math.floor((maxFreqIndex - minFreqIndex) / 800))`. -/
def spectrumStride (s : VisualizationSettings) (f : Frame) : ℤ :=
  max 1 ((maxFreqIndex s f - minFreqIndex s f) / 800)

/-- The index sequence of the plot loop
`for (let i = minFreqIndex; i < maxFreqIndex; i += step)`.
The `0 < step` test only guards termination; every call site passes the
`Math.max(1, _)` stride, which is positive. -/
def plotLoop (i maxIdx step : ℤ) : List ℤ :=
  if _h : 0 < step ∧ i < maxIdx then i :: plotLoop (i + step) maxIdx step else []
termination_by (maxIdx - i).toNat
decreasing_by omega

/-- The bin indices `renderFrequencySpectrum` samples for the polyline. -/
def spectrumIndices (s : VisualizationSettings) (f : Frame) : List ℤ :=
  plotLoop (minFreqIndex s f) (maxFreqIndex s f) (spectrumStride s f)

/-- Canvas coordinates of the sampled point for bin `i`:
`x = PADDING + ((freq - MIN_FREQ_KHZ) / (MAX_FREQ_KHZ - MIN_FREQ_KHZ)) * PLOT_WIDTH`,
`y = PADDING + (1 - normalizedDb) * PLOT_HEIGHT` with the dB value clamped
into `[-100, 0]` and `PADDING = 40`. -/
def spectrumPoint (s : VisualizationSettings) (width height : ℚ) (f : Frame)
    (i : ℤ) : ℚ × ℚ :=
  let freq := ((i : ℚ) * freqStep f) / 1000
  let db := f.fftData.getD i.toNat 0
  let x := 40 + ((freq - s.minFreqKHz) / (s.maxFreqKHz - s.minFreqKHz)) * (width - 2 * 40)
  let normalizedDb := max 0 (min 1 ((db - (-100)) / (0 - (-100))))
  let y := 40 + (1 - normalizedDb) * (height - 2 * 40)
  (x, y)

/-- The peak-frequency indicator: drawn only when
`frame.peak_frequency_hz > 0` and the peak in kHz lies inside
`[MIN_FREQ_KHZ, MAX_FREQ_KHZ]`, at
`peakX = PADDING + ((peakFreqKHz - MIN_FREQ_KHZ) / (MAX_FREQ_KHZ - MIN_FREQ_KHZ)) * PLOT_WIDTH`. -/
def peakMarker (s : VisualizationSettings) (width : ℚ) (f : Frame) : Option ℚ :=
  if 0 < f.peakFrequencyHz then
    let peakFreqKHz := f.peakFrequencyHz / 1000
    if s.minFreqKHz ≤ peakFreqKHz ∧ peakFreqKHz ≤ s.maxFreqKHz then
      some (40 + ((peakFreqKHz - s.minFreqKHz) / (s.maxFreqKHz - s.minFreqKHz)) * (width - 2 * 40))
    else none
  else none

/-- What `renderFrequencySpectrum` draws on top of the grid for one decoded
frame: the polyline points and the optional peak-marker x position. -/
structure SpectrumRender where
  points : List (ℚ × ℚ)
  peakMarkerX : Option ℚ
deriving DecidableEq, Repr

/-- `renderFrequencySpectrum` for a decoded frame: nothing beyond the grid
is drawn for an empty magnitude array. -/
def renderFrequencySpectrum (s : VisualizationSettings) (width height : ℚ)
    (f : Frame) : SpectrumRender :=
  if f.fftData.length = 0 then ⟨[], none⟩
  else
    ⟨(spectrumIndices s f).map (spectrumPoint s width height f),
     peakMarker s width f⟩

/-! ### The frequency-settings panel (`FrequencySettingsPanel`)

The component's state is: the `isOpen` prop, the `tempSettings` and `error`
`useState` hooks, the `initializedRef` and `originalSettingsRef` refs, and
the parent chart's committed settings (the `settings` prop, updated through
`onSettingsChange`).  React re-runs the component's effects after each
render in declaration order; the three effects become `runPanelEffects`
below, executed after every event that changes one of their dependencies
(`isOpen` or the `settings` prop). -/

/-- Component state of one `FrequencySettingsPanel` instance together with
its parent chart's committed settings. -/
structure PanelState where
  isOpen : Bool
  temp : VisualizationSettings
  error : String
  initFlag : Bool
  original : VisualizationSettings
  committed : VisualizationSettings
deriving DecidableEq, Repr

/-- What one keystroke in a numeric input delivers to the change handler:
an empty field, text that `parseFloat` cannot parse (NaN), or a number. -/
inductive InputValue
  | empty
  | notANumber
  | num (v : ℚ)
deriving DecidableEq, Repr

/-- The error string set by `handleMinFreqChange`. -/
def minErrorMsg : String := "Minimum frequency must be less than maximum frequency"

/-- The error string set by `handleMaxFreqChange`. -/
def maxErrorMsg : String := "Maximum frequency must be greater than minimum frequency"

/-- `handleMinFreqChange`: an empty field stages `0`; a parsed value is
staged only when it lies in `[0, 200]`, in which case the error message is
set exactly when `value >= tempSettings.maxFreqKHz`; any other input is
ignored outright. -/
def handleMinFreqChange (s : PanelState) : InputValue → PanelState
  | .empty => { s with temp := { s.temp with minFreqKHz := 0 } }
  | .notANumber => s
  | .num v =>
      if 0 ≤ v ∧ v ≤ 200 then
        { s with
          temp := { s.temp with minFreqKHz := v },
          error := if s.temp.maxFreqKHz ≤ v then minErrorMsg else "" }
      else s

/-- `handleMaxFreqChange`: an empty field stages `200`; a parsed value is
staged only when it lies in `[0, 200]`, with the error message set exactly
when `value <= tempSettings.minFreqKHz`; any other input is ignored. -/
def handleMaxFreqChange (s : PanelState) : InputValue → PanelState
  | .empty => { s with temp := { s.temp with maxFreqKHz := 200 } }
  | .notANumber => s
  | .num v =>
      if 0 ≤ v ∧ v ≤ 200 then
        { s with
          temp := { s.temp with maxFreqKHz := v },
          error := if v ≤ s.temp.minFreqKHz then maxErrorMsg else "" }
      else s

/-- The three `useEffect` bodies, in declaration order, as run after a
render in which `isOpen` or the `settings` prop changed:
first the initialize-once effect (guarded by `isOpen && !initializedRef`),
then the flag reset on close, then the `originalSettingsRef` capture
(guarded by `isOpen && !initializedRef` — note the first effect has already
set the flag by the time this one runs). -/
def runPanelEffects (s : PanelState) : PanelState :=
  let s1 := if s.isOpen ∧ ¬s.initFlag
    then { s with temp := s.committed, error := "", initFlag := true } else s
  let s2 := if ¬s1.isOpen then { s1 with initFlag := false } else s1
  let s3 := if s2.isOpen ∧ ¬s2.initFlag
    then { s2 with original := s2.committed } else s2
  s3

/-- The events a panel instance reacts to.  `toggleSettings` is the gear
button (`setShow...Settings(!show...Settings)`); `externalCommit` is the
`settings` prop changing from outside while this panel is not the one
applying. -/
inductive PanelEvent
  | toggleSettings
  | typeMin (v : InputValue)
  | typeMax (v : InputValue)
  | applyClick
  | cancelClick
  | externalCommit (c : VisualizationSettings)
deriving DecidableEq, Repr

/-- One event step.  `applyClick` is the Apply button: it is disabled while
`!!error || tempSettings.minFreqKHz >= tempSettings.maxFreqKHz`, and
`handleApply` itself additionally guards on `min < max` before calling
`onSettingsChange(tempSettings)`, clearing the initialization flag and
closing.  `cancelClick` runs `handleCancel`: stage
`originalSettingsRef.current`, clear the error, clear the flag, close.
After any event that changes `isOpen` or the `settings` prop the effects
re-run. -/
def panelStep (s : PanelState) : PanelEvent → PanelState
  | .toggleSettings =>
      runPanelEffects { s with isOpen := ¬s.isOpen }
  | .typeMin v => handleMinFreqChange s v
  | .typeMax v => handleMaxFreqChange s v
  | .applyClick =>
      if s.error = "" ∧ s.temp.minFreqKHz < s.temp.maxFreqKHz then
        runPanelEffects
          { s with committed := s.temp, initFlag := false, isOpen := false }
      else s
  | .cancelClick =>
      runPanelEffects
        { s with temp := s.original, error := "", initFlag := false, isOpen := false }
  | .externalCommit c =>
      let s' := { s with committed := c }
      if s'.isOpen ∧ ¬s'.initFlag then { s' with original := s'.committed } else s'

/-- State of a freshly mounted panel whose chart has committed settings
`c0`: panel closed, `tempSettings` initialized from the `settings` prop,
no error, `initializedRef` false, `originalSettingsRef` seeded with the
first-render `settings` prop. -/
def initialPanelState (c0 : VisualizationSettings) : PanelState :=
  ⟨false, c0, "", false, c0, c0⟩

/-- A whole editing session: fold the events over the mount state. -/
def runPanel (c0 : VisualizationSettings) (evts : List PanelEvent) : PanelState :=
  evts.foldl panelStep (initialPanelState c0)

/-- The committed-range invariant stated by the spec: both bounds in
`[0, 200]` kHz and `min < max` strictly. -/
def ValidSettings (c : VisualizationSettings) : Prop :=
  0 ≤ c.minFreqKHz ∧ c.minFreqKHz < c.maxFreqKHz ∧ c.maxFreqKHz ≤ 200

instance (c : VisualizationSettings) : Decidable (ValidSettings c) := by
  unfold ValidSettings; infer_instance

/-- Events whose payload cannot force an invalid committed value: an
`externalCommit` must itself carry valid settings (in the application it is
an apply of some other validated panel); every other event is
unconstrained. -/
def EventValid : PanelEvent → Prop
  | .externalCommit c => ValidSettings c
  | _ => True

instance (e : PanelEvent) : Decidable (EventValid e) := by
  unfold EventValid; cases e <;> infer_instance

/-- Both staged bounds lie in `[0, 200]` — the region the two change
handlers keep `tempSettings` in. -/
def TempInRange (s : PanelState) : Prop :=
  0 ≤ s.temp.minFreqKHz ∧ s.temp.minFreqKHz ≤ 200 ∧
    0 ≤ s.temp.maxFreqKHz ∧ s.temp.maxFreqKHz ≤ 200

/-! ### Stream lifecycle (`APIClient` in `api.ts`)

The client holds a single nullable `eventSource` field.  We additionally
track the set of `EventSource` objects this client has created and not yet
closed (`openConns`, by creation id) to state the single-flight property. -/

/-- Connection state of one `APIClient`: the `eventSource` field (id of the
current connection, if any), the ids of all connections created by this
client that are still open, and a fresh-id counter. -/
structure APIClientState where
  eventSource : Option ℕ
  openConns : List ℕ
  nextId : ℕ
deriving DecidableEq, Repr

/-- `disconnectFromStream()`: if `eventSource` is non-null, `close()` it and
null the field; otherwise do nothing. -/
def disconnectFromStream (s : APIClientState) : APIClientState :=
  match s.eventSource with
  | some i => { s with eventSource := none, openConns := s.openConns.erase i }
  | none => s

/-- The shared body of `connectToStream` and `connectToDeviceStream`:
`this.disconnectFromStream()` first, then `new EventSource(url)` assigned
to `this.eventSource`.  `ctorThrows` models the constructor throwing inside
the `try` (e.g. an invalid URL), in which case the field keeps the `null`
written by the disconnect. -/
def connectStep (s : APIClientState) (ctorThrows : Bool) : APIClientState :=
  let s' := disconnectFromStream s
  if ctorThrows then s'
  else
    { eventSource := some s'.nextId,
      openConns := s'.openConns ++ [s'.nextId],
      nextId := s'.nextId + 1 }

/-- External stimuli of an `APIClient`.  The device id of
`connectToDeviceStream` only changes the URL, not the connection logic, so
both connect methods map to `connectStep`. -/
inductive ClientEvent
  | connectToStream (ctorThrows : Bool)
  | connectToDeviceStream (deviceId : String) (ctorThrows : Bool)
  | disconnect
  | updateBaseUrl
deriving DecidableEq, Repr

/-- One `APIClient` method call. `updateBaseUrl` disconnects when a stream
is active and otherwise leaves the connection state alone. -/
def clientStep (s : APIClientState) : ClientEvent → APIClientState
  | .connectToStream ctorThrows => connectStep s ctorThrows
  | .connectToDeviceStream _ ctorThrows => connectStep s ctorThrows
  | .disconnect => disconnectFromStream s
  | .updateBaseUrl =>
      match s.eventSource with
      | some _ => disconnectFromStream s
      | none => s

/-- A fresh `APIClient`: `eventSource = null`, nothing open. -/
def initialClientState : APIClientState := ⟨none, [], 0⟩

/-- A session of client calls. -/
def runClient (evts : List ClientEvent) : APIClientState :=
  evts.foldl clientStep initialClientState

/-- The connections a client session holds open are exactly the one its
`eventSource` field points to, and every open connection id is older than
the fresh-id counter. -/
def ClientInv (s : APIClientState) : Prop :=
  s.openConns = s.eventSource.toList ∧ ∀ j ∈ s.openConns, j < s.nextId

/-! ### Stream message filtering (`onmessage` in `api.ts`) -/

/-- A JSON value as far as the filter cares: enough structure to evaluate
JavaScript truthiness and `typeof x === 'number'`. -/
inductive JValue
  | jnull
  | jbool (b : Bool)
  | jnum (q : ℚ)
  | jstr (s : String)
  | jarr
  | jobj
deriving DecidableEq, Repr

/-- JavaScript truthiness of a possibly-absent field (`undefined`, `null`,
`false`, `0` and the empty string are falsy; objects and arrays are
truthy). -/
def truthy : Option JValue → Bool
  | none => false
  | some .jnull => false
  | some (.jbool b) => b
  | some (.jnum q) => q != 0
  | some (.jstr s) => s != ""
  | some .jarr => true
  | some .jobj => true

/-- `typeof data.peak_frequency_hz === 'number'`. -/
def isNumberField : Option JValue → Bool
  | some (.jnum _) => true
  | _ => false

/-- One server-sent event as the `onmessage` handler sees it: either
`JSON.parse` throws, or it yields an object whose `type`,
`data_compressed` and `peak_frequency_hz` fields are as given (`none`
means the field is absent). -/
inductive StreamMessage
  | malformed
  | parsed (type_ : Option JValue) (data_compressed : Option JValue)
      (peak_frequency_hz : Option JValue)
deriving DecidableEq, Repr

/-- The filter in both `onmessage` handlers: a parse failure is swallowed;
`type === 'connected'` and `type === 'heartbeat'` messages are skipped;
`onData` is invoked exactly when `data.data_compressed` is truthy and
`data.peak_frequency_hz` is a number. -/
def shouldForward : StreamMessage → Bool
  | .malformed => false
  | .parsed type_ dc pk =>
      if type_ = some (.jstr "connected") ∨ type_ = some (.jstr "heartbeat") then false
      else truthy dc && isNumberField pk

/-- The per-second frame counter of `handleFFTData`
(`frameCount.current++`), which drives the status/metrics update: it
advances exactly when a message is forwarded to `onData`. -/
def frameCountStep (n : ℕ) (m : StreamMessage) : ℕ :=
  if shouldForward m then n + 1 else n

/-! ### Canvas sizing (`updateCanvasSize`) -/

/-- `updateCanvasSize`, as a function of the observed container rectangle
and its four computed border widths:
`width = Math.max(200, Math.floor(rect.width - borderLeft - borderRight))`,
`height = Math.max(150, Math.floor(rect.height - borderTop - borderBottom))`. -/
def updateCanvasSize (rectWidth rectHeight bLeft bRight bTop bBottom : ℚ) : ℤ × ℤ :=
  let availableWidth := rectWidth - bLeft - bRight
  let availableHeight := rectHeight - bTop - bBottom
  (max 200 ⌊availableWidth⌋, max 150 ⌊availableHeight⌋)

/-! ## Theorems -/

/-! ### C10 — canvas size floor -/

/-- C10: for every observed container box — including one reporting zero
width and height — `updateCanvasSize` produces dimensions of at least
200 × 150 pixels, so a zero-area raster is never produced. -/
theorem c10_canvas_size_floor
    (rectWidth rectHeight bLeft bRight bTop bBottom : ℚ) :
    200 ≤ (updateCanvasSize rectWidth rectHeight bLeft bRight bTop bBottom).1 ∧
    150 ≤ (updateCanvasSize rectWidth rectHeight bLeft bRight bTop bBottom).2 ∧
    0 < (updateCanvasSize rectWidth rectHeight bLeft bRight bTop bBottom).1 *
        (updateCanvasSize rectWidth rectHeight bLeft bRight bTop bBottom).2 := by
  refine ⟨le_max_left _ _, le_max_left _ _, ?_⟩
  have h1 : (0 : ℤ) < (updateCanvasSize rectWidth rectHeight bLeft bRight bTop bBottom).1 :=
    lt_of_lt_of_le (by norm_num) (le_max_left _ _)
  have h2 : (0 : ℤ) < (updateCanvasSize rectWidth rectHeight bLeft bRight bTop bBottom).2 :=
    lt_of_lt_of_le (by norm_num) (le_max_left _ _)
  exact mul_pos h1 h2

/-! ### C9 — stream message filtering -/

/-- C9: `connected` and `heartbeat` messages are discarded, only messages
carrying a (truthy) compressed payload and a numeric `peak_frequency_hz`
reach `onData`, and a heartbeat therefore never advances the frame counter
that drives the metrics update. -/
theorem c9_message_filter :
    (∀ dc pk, shouldForward (.parsed (some (.jstr "heartbeat")) dc pk) = false) ∧
    (∀ dc pk, shouldForward (.parsed (some (.jstr "connected")) dc pk) = false) ∧
    (∀ m, shouldForward m = true →
      ∃ t dc pk, m = .parsed t dc pk ∧ dc ≠ none ∧ ∃ q, pk = some (.jnum q)) ∧
    (∀ n dc pk, frameCountStep n (.parsed (some (.jstr "heartbeat")) dc pk) = n) := by
  refine ⟨fun dc pk => by simp [shouldForward], fun dc pk => by simp [shouldForward],
    fun m hm => ?_, fun n dc pk => by simp [frameCountStep, shouldForward]⟩
  cases m with
  | malformed => simp [shouldForward] at hm
  | parsed t dc pk =>
      refine ⟨t, dc, pk, rfl, ?_, ?_⟩
      · intro hdc
        subst hdc
        simp [shouldForward, truthy] at hm
      · by_cases ht : t = some (.jstr "connected") ∨ t = some (.jstr "heartbeat")
        · simp [shouldForward, ht] at hm
        · simp [shouldForward, ht] at hm
          cases pk with
          | none => simp [isNumberField] at hm
          | some v =>
              cases v with
              | jnum q => exact ⟨q, rfl⟩
              | jnull => simp [isNumberField] at hm
              | jbool b => simp [isNumberField] at hm
              | jstr s => simp [isNumberField] at hm
              | jarr => simp [isNumberField] at hm
              | jobj => simp [isNumberField] at hm

/-- Witness for C9 at a concrete frame-shaped message. -/
theorem c9_message_filter_witness :
    ∃ t dc pk,
      (StreamMessage.parsed none (some (.jstr "eJzLSM3JyQcA")) (some (.jnum 45000))) =
        .parsed t dc pk ∧ dc ≠ none ∧ ∃ q, pk = some (.jnum q) :=
  c9_message_filter.2.2.1 _ (by decide)

/-! ### C8 — single-flight stream connection -/

/-- After `disconnectFromStream` the `eventSource` field is always null. -/
theorem disconnect_eventSource (s : APIClientState) :
    (disconnectFromStream s).eventSource = none := by
  cases hes : s.eventSource <;> simp [disconnectFromStream, hes]

/-- The single-flight invariant is preserved by every client call. -/
theorem clientStep_preserves_inv (s : APIClientState) (e : ClientEvent)
    (h : ClientInv s) : ClientInv (clientStep s e) := by
  obtain ⟨es, oc, nid⟩ := s
  have hdisc : ClientInv (disconnectFromStream ⟨es, oc, nid⟩) := by
    cases es with
    | none => exact h
    | some i =>
        obtain ⟨h1, h2⟩ := h
        simp only [Option.toList] at h1
        constructor
        · simp [disconnectFromStream, ClientInv, h1]
        · intro j hj
          simp [disconnectFromStream, h1] at hj
  have hconn : ∀ b, ClientInv (connectStep ⟨es, oc, nid⟩ b) := by
    intro b
    cases b with
    | true => simpa [connectStep] using hdisc
    | false =>
        obtain ⟨g1, g2⟩ := hdisc
        rw [disconnect_eventSource] at g1
        simp only [Option.toList] at g1
        constructor
        · simp [connectStep, ClientInv, g1]
        · intro j hj
          simp [connectStep, g1] at hj ⊢
          omega
  cases e with
  | connectToStream b => exact hconn b
  | connectToDeviceStream d b => exact hconn b
  | disconnect => exact hdisc
  | updateBaseUrl =>
      cases es with
      | none => exact h
      | some i => exact hdisc

/-- Every option's `toList` has at most one element. -/
theorem option_toList_length_le_one (o : Option ℕ) : o.toList.length ≤ 1 := by
  cases o <;> simp

/-- C8: an `APIClient` session keeps at most one stream connection open —
`ClientInv` holds in every reachable state, so the set of open connections
never exceeds one — and switching target while streaming closes exactly the
one prior connection before the new one is opened. -/
theorem c8_single_flight :
    (∀ evts, ClientInv (runClient evts)) ∧
    (∀ evts, (runClient evts).openConns.length ≤ 1) ∧
    (∀ (s : APIClientState) (d : String) (i : ℕ), ClientInv s →
      s.eventSource = some i →
      s.openConns = [i] ∧
      (clientStep s (.connectToDeviceStream d false)).openConns = [s.nextId] ∧
      i ∉ (clientStep s (.connectToDeviceStream d false)).openConns) := by
  have hrun : ∀ evts, ClientInv (runClient evts) := by
    intro evts
    have hfold : ∀ (l : List ClientEvent) (s : APIClientState), ClientInv s →
        ClientInv (l.foldl clientStep s) := by
      intro l
      induction l with
      | nil => intro s hs; exact hs
      | cons e t ih => intro s hs; exact ih _ (clientStep_preserves_inv s e hs)
    refine hfold evts initialClientState ?_
    constructor
    · rfl
    · intro j hj; simp [initialClientState] at hj
  refine ⟨hrun, fun evts => ?_, fun s d i hinv hes => ?_⟩
  · obtain ⟨h1, _⟩ := hrun evts
    rw [h1]
    exact option_toList_length_le_one _
  · obtain ⟨es, oc, nid⟩ := s
    obtain ⟨h1, h2⟩ := hinv
    simp only at hes
    subst hes
    simp only [Option.toList] at h1
    have hi : i < nid := h2 i (by simp [h1])
    subst h1
    refine ⟨rfl, ?_, ?_⟩
    · simp [clientStep, connectStep, disconnectFromStream]
    · simp [clientStep, connectStep, disconnectFromStream]
      omega

/-- Witness for C8: a concrete device switch mid-stream. -/
theorem c8_single_flight_witness :
    ClientInv (runClient [.connectToStream false]) ∧
    (runClient [.connectToStream false]).openConns = [0] ∧
    (clientStep (runClient [.connectToStream false])
        (.connectToDeviceStream "dev1" false)).openConns = [1] ∧
    0 ∉ (clientStep (runClient [.connectToStream false])
        (.connectToDeviceStream "dev1" false)).openConns := by
  have h := c8_single_flight.2.2 (runClient [.connectToStream false]) "dev1" 0
    (c8_single_flight.1 [.connectToStream false]) (by decide)
  have hnext : (runClient [.connectToStream false]).nextId = 1 := by decide
  exact ⟨c8_single_flight.1 _, h.1, by rw [hnext] at h; exact h.2.1, h.2.2⟩

/-! ### C3 — decode failure handling -/

/-- `f32words` packs exactly four bytes into each output word. -/
theorem f32words_length : ∀ bs : List ℕ, (f32words bs).length = bs.length / 4
  | [] => by simp [f32words]
  | [_] => by simp [f32words]
  | [_, _] => by simp [f32words]
  | [_, _, _] => by simp [f32words]
  | _ :: _ :: _ :: _ :: rest => by
      simp only [f32words, List.length_cons, f32words_length rest]
      omega

/-- Counterexample to C3 as stated: a payload whose decompression result is
empty (base64 of a deflate stream of zero bytes) does NOT yield
`DecodeFailure` — `decompressFFTData` returns an empty array, not `null`. -/
theorem c3_counterexample :
    decompressFFTData ⟨.ok [120, 156, 3, 0, 0, 0, 0, 1], .ok []⟩ = some [] ∧
    some ([] : List ℕ) ≠ (none : Option (List ℕ)) := by decide

/-- C3 (amended): `decompressFFTData` yields `null` exactly on a malformed
base64 encoding, an inflate error, or a decompressed byte length that is
not a multiple of four; an empty decompression result instead yields an
empty (non-null) array.  In every one of these cases — `null` or empty —
both renderers drop the frame, and any non-null result is the complete
word-by-word decoding of the decompressed bytes, never a partial one. -/
theorem c3_decode_failure (p : CompressedPayload) :
    (decompressFFTData p = none ↔
      p.atob = .failure ∨ p.inflate = .failure ∨
        ∃ bytes, p.inflate = .ok bytes ∧ bytes.length % 4 ≠ 0) ∧
    ((decompressFFTData p = none ∨ decompressFFTData p = some []) →
      spectrumDrawsData p = false ∧ spectrogramConsumesFrame p = false) ∧
    (∀ l, decompressFFTData p = some l →
      ∃ bytes, p.inflate = .ok bytes ∧ l = f32words bytes ∧
        4 * l.length = bytes.length) := by
  obtain ⟨a, i⟩ := p
  refine ⟨?_, ?_, ?_⟩
  · cases a with
    | failure => simp [decompressFFTData]
    | ok abytes =>
        cases i with
        | failure => simp [decompressFFTData]
        | ok bytes =>
            by_cases h4 : bytes.length % 4 = 0
            · simp [decompressFFTData, h4]
            · simp [decompressFFTData, h4]
  · intro hfail
    cases hfail with
    | inl hnone =>
        constructor <;> simp [spectrumDrawsData, spectrogramConsumesFrame, hnone]
    | inr hempty =>
        constructor <;> simp [spectrumDrawsData, spectrogramConsumesFrame, hempty]
  · intro l hl
    cases a with
    | failure => simp [decompressFFTData] at hl
    | ok abytes =>
        cases i with
        | failure => simp [decompressFFTData] at hl
        | ok bytes =>
            by_cases h4 : bytes.length % 4 = 0
            · refine ⟨bytes, rfl, ?_, ?_⟩
              · simp [decompressFFTData, h4] at hl
                exact hl.symm
              · simp [decompressFFTData, h4] at hl
                rw [← hl, f32words_length]
                omega
            · simp [decompressFFTData, h4] at hl

/-- Witness for C3 at concrete failing payloads: a malformed encoding, an
inflate error and a 3-byte (non-multiple-of-4) result are all dropped by
both renderers. -/
theorem c3_decode_failure_witness :
    (spectrumDrawsData ⟨.failure, .ok [1, 2, 3, 4]⟩ = false ∧
      spectrogramConsumesFrame ⟨.failure, .ok [1, 2, 3, 4]⟩ = false) ∧
    (spectrumDrawsData ⟨.ok [120], .failure⟩ = false ∧
      spectrogramConsumesFrame ⟨.ok [120], .failure⟩ = false) ∧
    (spectrumDrawsData ⟨.ok [120], .ok [1, 2, 3]⟩ = false ∧
      spectrogramConsumesFrame ⟨.ok [120], .ok [1, 2, 3]⟩ = false) :=
  ⟨(c3_decode_failure ⟨.failure, .ok [1, 2, 3, 4]⟩).2.1 (Or.inl (by decide)),
   (c3_decode_failure ⟨.ok [120], .failure⟩).2.1 (Or.inl (by decide)),
   (c3_decode_failure ⟨.ok [120], .ok [1, 2, 3]⟩).2.1 (Or.inl (by decide))⟩

/-! ### C5 / C6 — settings validation and cancel semantics -/

/-- Running one more event is one more step. -/
theorem runPanel_append (c0 : VisualizationSettings) (evts : List PanelEvent)
    (e : PanelEvent) :
    runPanel c0 (evts ++ [e]) = panelStep (runPanel c0 evts) e := by
  simp [runPanel, List.foldl_append]

/-- Every event keeps `originalSettingsRef` untouched and re-establishes
`initializedRef = isOpen`: the capture effect is guarded by
`!initializedRef.current`, which the earlier initialize effect has always
already set by the time it runs. -/
theorem panelStep_keeps_original (s : PanelState) (e : PanelEvent)
    (h : s.initFlag = s.isOpen) :
    (panelStep s e).original = s.original ∧
    (panelStep s e).initFlag = (panelStep s e).isOpen := by
  obtain ⟨o, t, err, fl, orig, com⟩ := s
  simp only at h
  subst h
  cases e with
  | toggleSettings => cases fl <;> simp [panelStep, runPanelEffects]
  | typeMin v =>
      cases v with
      | empty => simp [panelStep, handleMinFreqChange]
      | notANumber => simp [panelStep, handleMinFreqChange]
      | num x =>
          simp only [panelStep, handleMinFreqChange]
          split_ifs <;> simp
  | typeMax v =>
      cases v with
      | empty => simp [panelStep, handleMaxFreqChange]
      | notANumber => simp [panelStep, handleMaxFreqChange]
      | num x =>
          simp only [panelStep, handleMaxFreqChange]
          split_ifs <;> simp
  | applyClick =>
      simp only [panelStep]
      split_ifs <;> simp [runPanelEffects]
  | cancelClick => simp [panelStep, runPanelEffects]
  | externalCommit c => cases fl <;> simp [panelStep]

/-- In every reachable panel state, `originalSettingsRef` still holds the
mount-time settings and the initialization flag tracks `isOpen`. -/
theorem runPanel_original (c0 : VisualizationSettings) (evts : List PanelEvent) :
    (runPanel c0 evts).original = c0 ∧
    (runPanel c0 evts).initFlag = (runPanel c0 evts).isOpen := by
  suffices h : ∀ (l : List PanelEvent) (s : PanelState), s.initFlag = s.isOpen →
      (l.foldl panelStep s).original = s.original ∧
      (l.foldl panelStep s).initFlag = (l.foldl panelStep s).isOpen by
    exact (h evts (initialPanelState c0) rfl)
  intro l
  induction l with
  | nil => intro s hs; exact ⟨rfl, hs⟩
  | cons e t ih =>
      intro s hs
      obtain ⟨h1, h2⟩ := panelStep_keeps_original s e hs
      obtain ⟨ih1, ih2⟩ := ih (panelStep s e) h2
      exact ⟨ih1.trans h1, ih2⟩

/-- C6 (amended): cancelling an edit does not restore the values captured
when editing began — it restores the settings captured at the component's
first render (`originalSettingsRef` is never updated after mount, because
the initialize effect sets `initializedRef` before the capture effect
runs).  The committed settings are left unchanged by the cancel, and the
staged values are re-initialized from the committed settings at the next
open, so interim keystrokes are still discarded. -/
theorem c6_cancel_restores_mount_settings (c0 : VisualizationSettings)
    (evts : List PanelEvent) :
    runPanel c0 (evts ++ [.cancelClick]) =
      { isOpen := false, temp := c0, error := "", initFlag := false,
        original := c0, committed := (runPanel c0 evts).committed } := by
  obtain ⟨h1, _⟩ := runPanel_original c0 evts
  rw [runPanel_append]
  simp [panelStep, runPanelEffects, h1]

/-- Counterexample to C6 as stated: open, apply `{10, 100}`, re-open (so
editing begins with values `{10, 100}` on screen), type a new minimum and
cancel.  The handler restores `{0, 200}` — the mount-time settings — not
the `{10, 100}` present when this editing session began. -/
theorem c6_counterexample :
    (runPanel ⟨0, 200⟩ [.toggleSettings, .typeMin (.num 10), .typeMax (.num 100),
        .applyClick, .toggleSettings]).temp = ⟨10, 100⟩ ∧
    (runPanel ⟨0, 200⟩ [.toggleSettings, .typeMin (.num 10), .typeMax (.num 100),
        .applyClick, .toggleSettings, .typeMin (.num 50), .cancelClick]).temp = ⟨0, 200⟩ ∧
    (⟨0, 200⟩ : VisualizationSettings) ≠ ⟨10, 100⟩ := by decide

/-- A step preserves staged-range containment and committed validity. -/
theorem panelStep_preserves_valid (s : PanelState) (e : PanelEvent)
    (h : s.initFlag = s.isOpen) (hv : EventValid e)
    (ht : TempInRange s) (hc : ValidSettings s.committed)
    (ho : ValidSettings s.original) :
    TempInRange (panelStep s e) ∧ ValidSettings (panelStep s e).committed := by
  obtain ⟨o, t, err, fl, orig, com⟩ := s
  simp only at h
  subst h
  obtain ⟨ht1, ht2, ht3, ht4⟩ := ht
  obtain ⟨hc1, hc2, hc3⟩ := hc
  obtain ⟨ho1, ho2, ho3⟩ := ho
  simp only [TempInRange, ValidSettings] at *
  cases e with
  | toggleSettings =>
      cases fl <;> simp [panelStep, runPanelEffects] <;>
        and_intros <;> first | assumption | linarith
  | typeMin v =>
      cases v with
      | empty =>
          simp [panelStep, handleMinFreqChange]
          and_intros <;> assumption
      | notANumber =>
          simp [panelStep, handleMinFreqChange]
          and_intros <;> assumption
      | num x =>
          simp only [panelStep, handleMinFreqChange]
          split_ifs <;> simp <;> and_intros <;> first | assumption | linarith
  | typeMax v =>
      cases v with
      | empty =>
          simp [panelStep, handleMaxFreqChange]
          and_intros <;> assumption
      | notANumber =>
          simp [panelStep, handleMaxFreqChange]
          and_intros <;> assumption
      | num x =>
          simp only [panelStep, handleMaxFreqChange]
          split_ifs <;> simp <;> and_intros <;> first | assumption | linarith
  | applyClick =>
      simp only [panelStep]
      split_ifs <;> simp [runPanelEffects] <;> and_intros <;>
        first | assumption | linarith
  | cancelClick =>
      simp [panelStep, runPanelEffects]
      and_intros <;> first | assumption | linarith

  | externalCommit c =>
      simp only [EventValid, ValidSettings] at hv
      obtain ⟨hv1, hv2, hv3⟩ := hv
      cases fl <;> simp [panelStep] <;> and_intros <;> assumption

/-- Committed settings stay valid along any session whose external commits
are themselves valid. -/
theorem runPanel_committed_valid (c0 : VisualizationSettings)
    (evts : List PanelEvent) (hc0 : ValidSettings c0)
    (hv : ∀ e ∈ evts, EventValid e) :
    ValidSettings (runPanel c0 evts).committed := by
  suffices h : ∀ (l : List PanelEvent) (s : PanelState), s.initFlag = s.isOpen →
      TempInRange s → ValidSettings s.committed → ValidSettings s.original →
      (∀ e ∈ l, EventValid e) → ValidSettings (l.foldl panelStep s).committed by
    refine h evts (initialPanelState c0) rfl ?_ hc0 hc0 hv
    exact ⟨hc0.1, le_of_lt (lt_of_lt_of_le hc0.2.1 hc0.2.2),
      le_trans hc0.1 (le_of_lt hc0.2.1), hc0.2.2⟩
  intro l
  induction l with
  | nil => intro s _ _ hcs _ _; exact hcs
  | cons e t ih =>
      intro s hs hts hcs hos hl
      obtain ⟨_, h2⟩ := panelStep_keeps_original s e hs
      obtain ⟨h3, h4⟩ := panelStep_preserves_valid s e hs (hl e (by simp)) hts hcs hos
      refine ih (panelStep s e) h2 h3 h4 ?_ ?_
      · rw [(panelStep_keeps_original s e hs).1]; exact hos
      · intro e' he'; exact hl e' (by simp [he'])

/-- Counterexample to C5 as stated: the proposal `min = 300` (outside
`[0, 200]`) is rejected *silently* — the keystroke is ignored, no
human-readable reason is produced (`error` stays empty), though the
committed settings are indeed unchanged. -/
theorem c5_counterexample :
    (200 : ℚ) < 300 ∧
    runPanel ⟨0, 200⟩ [.toggleSettings, .typeMin (.num 300)] =
      runPanel ⟨0, 200⟩ [.toggleSettings] ∧
    (runPanel ⟨0, 200⟩ [.toggleSettings, .typeMin (.num 300)]).error = "" := by decide

/-- C5 (amended): a staged value outside `[0, 200]` is rejected silently —
the input handlers ignore it without staging it and without reporting any
reason; a staged `min ≥ max` is rejected with the human-readable error
message and Apply refuses to commit while it holds; in all cases the
previously committed settings remain exactly unchanged, and along any
session starting from valid committed settings the committed settings
always satisfy `0 ≤ min < max ≤ 200` — an invalid staged state is never
applied live. -/
theorem c5_validation (s : PanelState) (x : ℚ) :
    ((x < 0 ∨ 200 < x) →
      handleMinFreqChange s (.num x) = s ∧ handleMaxFreqChange s (.num x) = s) ∧
    (¬ s.temp.minFreqKHz < s.temp.maxFreqKHz → panelStep s .applyClick = s) ∧
    (0 ≤ x → x ≤ 200 → s.temp.maxFreqKHz ≤ x →
      (handleMinFreqChange s (.num x)).error = minErrorMsg ∧ minErrorMsg ≠ "") ∧
    ((panelStep s (.typeMin (.num x))).committed = s.committed ∧
      (panelStep s (.typeMax (.num x))).committed = s.committed) ∧
    (∀ (c0 : VisualizationSettings) (evts : List PanelEvent),
      ValidSettings c0 → (∀ e ∈ evts, EventValid e) →
      ValidSettings (runPanel c0 evts).committed) := by
  refine ⟨?_, ?_, ?_, ?_, fun c0 evts h1 h2 => runPanel_committed_valid c0 evts h1 h2⟩
  · intro hx
    have hrange : ¬ (0 ≤ x ∧ x ≤ 200) := by
      rcases hx with hx | hx
      · intro hr; linarith [hr.1]
      · intro hr; linarith [hr.2]
    constructor
    · simp [handleMinFreqChange, hrange]
    · simp [handleMaxFreqChange, hrange]
  · intro hlt
    simp only [panelStep]
    rw [if_neg]
    intro hg
    exact hlt hg.2
  · intro h0 h200 hge
    constructor
    · simp [handleMinFreqChange, h0, h200, hge]
    · simp [minErrorMsg]
  · constructor
    · simp only [panelStep, handleMinFreqChange]
      split_ifs <;> rfl
    · simp only [panelStep, handleMaxFreqChange]
      split_ifs <;> rfl

/-- Witness for C5 at concrete inputs. -/
theorem c5_validation_witness :
    (handleMinFreqChange (initialPanelState ⟨0, 200⟩) (.num 300) =
        initialPanelState ⟨0, 200⟩ ∧
      handleMaxFreqChange (initialPanelState ⟨0, 200⟩) (.num 300) =
        initialPanelState ⟨0, 200⟩) ∧
    (handleMinFreqChange (runPanel ⟨0, 200⟩ [.toggleSettings]) (.num 200)).error =
        minErrorMsg ∧
    ValidSettings (runPanel ⟨0, 200⟩
        [.toggleSettings, .typeMin (.num 10), .typeMax (.num 100), .applyClick]).committed := by
  refine ⟨(c5_validation (initialPanelState ⟨0, 200⟩) 300).1 (Or.inr (by decide)),
    ((c5_validation (runPanel ⟨0, 200⟩ [.toggleSettings]) 200).2.2.1
      (by decide) (by decide) (by decide)).1,
    (c5_validation (initialPanelState ⟨0, 200⟩) 0).2.2.2.2 ⟨0, 200⟩ _ (by decide) ?_⟩
  intro e he
  fin_cases he <;> trivial

/-! ### C1 / C2 — waterfall shift and shape-change reset -/

/-- When the derived bin count matches the recorded width (and the buffer
holds its full `waterfallHeight` rows), a frame shifts the rows by one and
appends the sliced magnitudes. -/
theorem waterfall_shift (s : VisualizationSettings) (st : WaterfallState)
    (f : Frame) (hlen : st.data.length = waterfallHeight)
    (hbins : st.freqBins = freqBinCount s f)
    (hne : f.fftData.length ≠ 0) :
    renderSpectrogramStep s st f =
      some ⟨st.data.drop 1 ++ [sliceMags s f], st.freqBins⟩ := by
  simp only [renderSpectrogramStep]
  rw [if_neg hne, if_neg]
  rintro (h0 | hmm)
  · rw [hlen] at h0; simp [waterfallHeight] at h0
  · exact hmm hbins

/-- Folding matching frames over a full buffer drops one row per frame at
the front and appends the slices in arrival order at the back. -/
theorem waterfall_run_eq (s : VisualizationSettings) (frames : List Frame) :
    ∀ st : WaterfallState, st.data.length = waterfallHeight →
    (∀ g ∈ frames, freqBinCount s g = st.freqBins ∧ g.fftData.length ≠ 0) →
    (frames.foldl (waterfallCatchStep s) st).data =
        (st.data ++ frames.map (sliceMags s)).drop frames.length ∧
    (frames.foldl (waterfallCatchStep s) st).freqBins = st.freqBins := by
  induction frames with
  | nil => intro st hlen hall; simp
  | cons g gs ih =>
      intro st hlen hall
      have hg := hall g (by simp)
      have hstep : waterfallCatchStep s st g =
          ⟨st.data.drop 1 ++ [sliceMags s g], st.freqBins⟩ := by
        rw [waterfallCatchStep, waterfall_shift s st g hlen hg.1.symm hg.2]
        rfl
      have hlen' : (st.data.drop 1 ++ [sliceMags s g]).length = waterfallHeight := by
        simp [List.length_drop, hlen]
        have : 0 < waterfallHeight := by norm_num [waterfallHeight]
        omega
      have hall' : ∀ g' ∈ gs,
          freqBinCount s g' = (⟨st.data.drop 1 ++ [sliceMags s g], st.freqBins⟩ :
            WaterfallState).freqBins ∧ g'.fftData.length ≠ 0 := by
        intro g' hg'
        exact hall g' (by simp [hg'])
      obtain ⟨ihdata, ihbins⟩ :=
        ih ⟨st.data.drop 1 ++ [sliceMags s g], st.freqBins⟩ hlen' hall'
      constructor
      · rw [List.foldl_cons, hstep, ihdata]
        have hone : 1 ≤ st.data.length := by
          rw [hlen]; norm_num [waterfallHeight]
        have hd : st.data.drop 1 ++ ([sliceMags s g] ++ gs.map (sliceMags s)) =
            (st.data ++ ([sliceMags s g] ++ gs.map (sliceMags s))).drop 1 := by
          rw [List.drop_append_of_le_length hone]
        simp only [List.map_cons, List.length_cons, List.append_assoc]
        rw [hd, List.drop_drop, Nat.add_comm 1 gs.length]
        simp
      · rw [List.foldl_cons, hstep, ihbins]

/-- C1: for an initialized waterfall buffer and a frame whose derived bin
count equals the recorded width, processing shifts every row one position
toward index 0 (row `i` receives row `i+1`), writes the magnitudes sliced
to `[minFreqIndex, maxFreqIndex)` into the last row, and consequently after
any sequence of `N` matching frames over a fresh buffer the data-bearing
rows sit in strict arrival order with the newest at index `H-1`, the
oldest rows being discarded first once `H` frames have accumulated. -/
theorem c1_waterfall_scroll (s : VisualizationSettings) (st : WaterfallState)
    (f : Frame) (hlen : st.data.length = waterfallHeight)
    (hbins : st.freqBins = freqBinCount s f)
    (hne : f.fftData.length ≠ 0) :
    renderSpectrogramStep s st f =
      some ⟨st.data.drop 1 ++ [sliceMags s f], st.freqBins⟩ ∧
    (∀ i : ℕ, i + 1 < waterfallHeight →
      (st.data.drop 1 ++ [sliceMags s f])[i]? = st.data[i + 1]?) ∧
    (st.data.drop 1 ++ [sliceMags s f])[waterfallHeight - 1]? =
      some (sliceMags s f) ∧
    (∀ (frames : List Frame) (W : ℤ),
      (∀ g ∈ frames, freqBinCount s g = W ∧ g.fftData.length ≠ 0) →
      (frames.foldl (waterfallCatchStep s)
          ⟨List.replicate waterfallHeight (List.replicate W.toNat (-100)), W⟩).data =
        (List.replicate waterfallHeight (List.replicate W.toNat (-100)) ++
          frames.map (sliceMags s)).drop frames.length) := by
  refine ⟨waterfall_shift s st f hlen hbins hne, ?_, ?_, ?_⟩
  · intro i hi
    rw [List.getElem?_append_left (by simp [List.length_drop, hlen]; omega),
      List.getElem?_drop]
    congr 1
    omega
  · have hdlen : (st.data.drop 1).length = waterfallHeight - 1 := by
      simp [List.length_drop, hlen]
    rw [← hdlen, List.getElem?_concat_length]
  · intro frames W hframes
    exact (waterfall_run_eq s frames
      ⟨List.replicate waterfallHeight (List.replicate W.toNat (-100)), W⟩
      (by simp) (fun g hg => hframes g hg)).1

set_option maxRecDepth 4000 in
/-- Witness for C1: two concrete frames scrolled through a full buffer. -/
theorem c1_waterfall_scroll_witness :
    renderSpectrogramStep ⟨0, 200⟩ ⟨List.replicate 200 [(3 : ℚ)], 1⟩ ⟨2000, [5], 0⟩ =
      some ⟨(List.replicate 200 [(3 : ℚ)]).drop 1 ++
        [sliceMags ⟨0, 200⟩ ⟨2000, [5], 0⟩], 1⟩ ∧
    (List.foldl (waterfallCatchStep ⟨0, 200⟩)
        ⟨List.replicate waterfallHeight (List.replicate (1 : ℤ).toNat (-100)), 1⟩
        ([⟨2000, [5], 0⟩, ⟨2000, [7], 0⟩] : List Frame)).data =
      (List.replicate waterfallHeight (List.replicate (1 : ℤ).toNat (-100)) ++
        [sliceMags ⟨0, 200⟩ ⟨2000, [5], 0⟩, sliceMags ⟨0, 200⟩ ⟨2000, [7], 0⟩]).drop 2 := by
  have hbins : (1 : ℤ) = freqBinCount ⟨0, 200⟩ ⟨2000, [5], 0⟩ := by
    norm_num [freqBinCount, maxFreqIndex, minFreqIndex, freqStep]
  have hbins7 : freqBinCount ⟨0, 200⟩ ⟨2000, [7], 0⟩ = 1 := by
    norm_num [freqBinCount, maxFreqIndex, minFreqIndex, freqStep]
  have h := c1_waterfall_scroll ⟨0, 200⟩ ⟨List.replicate 200 [(3 : ℚ)], 1⟩
    ⟨2000, [5], 0⟩ (by simp [waterfallHeight]) hbins (by simp)
  refine ⟨h.1, ?_⟩
  have h4 := h.2.2.2 [⟨2000, [5], 0⟩, ⟨2000, [7], 0⟩] 1 ?_
  · simpa using h4
  · intro g hg
    simp only [List.mem_cons, List.mem_singleton] at hg
    rcases hg with hg | hg | hg
    · subst hg; exact ⟨hbins.symm, by simp⟩
    · subst hg; exact ⟨hbins7, by simp⟩
    · cases hg

/-- Every frame arrival leaves the waterfall buffer either uninitialized or
at exactly `waterfallHeight` rows. -/
theorem waterfall_step_length (s : VisualizationSettings) (st : WaterfallState)
    (f : Frame)
    (h : st.data.length = 0 ∨ st.data.length = waterfallHeight) :
    (waterfallCatchStep s st f).data.length = 0 ∨
    (waterfallCatchStep s st f).data.length = waterfallHeight := by
  unfold waterfallCatchStep renderSpectrogramStep
  by_cases hne : f.fftData.length = 0
  · simpa [hne] using h
  · rw [if_neg hne]
    simp only
    by_cases hcond : st.data.length = 0 ∨ st.freqBins ≠ freqBinCount s f
    · rw [if_pos hcond]
      unfold allocWaterfall
      by_cases hneg : freqBinCount s f < 0
      · simpa [hneg] using h
      · rw [if_neg hneg]
        simp
    · rw [if_neg hcond]
      push_neg at hcond
      have hlen : st.data.length = waterfallHeight := by
        rcases h with h | h
        · exact absurd h hcond.1
        · exact h
      right
      simp [List.length_drop, hlen]
      have : 0 < waterfallHeight := by norm_num [waterfallHeight]
      omega

set_option maxRecDepth 8000 in
/-- Counterexample to C2 as stated: committed range `[50, 60]` kHz on a
96 kHz-sample-rate frame with 512 bins puts the range minimum above the
Nyquist frequency, so the derived bin count is `-21`.  It differs from the
recorded width, but the buffer is NOT reallocated: `Array(-21)` throws a
`RangeError`, the refs keep their old values, and the frame is dropped via
the stream handler's catch. -/
theorem c2_counterexample :
    freqBinCount ⟨50, 60⟩ ⟨96000, List.replicate 512 0, 0⟩ = -21 ∧
    (⟨List.replicate 200 [], 0⟩ : WaterfallState).freqBins ≠
      freqBinCount ⟨50, 60⟩ ⟨96000, List.replicate 512 0, 0⟩ ∧
    renderSpectrogramStep ⟨50, 60⟩ ⟨List.replicate 200 [], 0⟩
      ⟨96000, List.replicate 512 0, 0⟩ = none ∧
    waterfallCatchStep ⟨50, 60⟩ ⟨List.replicate 200 [], 0⟩
      ⟨96000, List.replicate 512 0, 0⟩ = ⟨List.replicate 200 [], 0⟩ := by
  have hb : freqBinCount ⟨50, 60⟩ ⟨96000, List.replicate 512 0, 0⟩ = -21 := by
    norm_num [freqBinCount, maxFreqIndex, minFreqIndex, freqStep]
  have hstep : renderSpectrogramStep ⟨50, 60⟩ ⟨List.replicate 200 [], 0⟩
      ⟨96000, List.replicate 512 0, 0⟩ = none := by
    unfold renderSpectrogramStep
    rw [if_neg (by simp)]
    simp only [hb]
    rw [if_pos (by norm_num)]
    unfold allocWaterfall
    rw [if_pos (by norm_num)]
  refine ⟨hb, by rw [hb]; norm_num, hstep, ?_⟩
  rw [waterfallCatchStep, hstep]
  rfl

/-- C2 (amended): once initialized the buffer always holds exactly
`H = 200` rows, and a frame whose derived bin count differs from the
recorded width is dropped with the buffer reallocated to `H` rows of the
new width filled with `-100` dB — PROVIDED the derived bin count is
nonnegative.  When it is negative (range minimum above Nyquist) the
allocation throws instead: the frame is still dropped (the exception is
caught by the stream handler) but the buffer and recorded width keep their
previous values. -/
theorem c2_buffer_shape (s : VisualizationSettings) (st : WaterfallState)
    (f : Frame) :
    waterfallHeight = 200 ∧
    (st.data.length = 0 ∨ st.data.length = waterfallHeight →
      (waterfallCatchStep s st f).data.length = 0 ∨
      (waterfallCatchStep s st f).data.length = waterfallHeight) ∧
    (∀ evts, (runWaterfall evts).data.length = 0 ∨
      (runWaterfall evts).data.length = waterfallHeight) ∧
    (f.fftData.length ≠ 0 → st.freqBins ≠ freqBinCount s f →
      0 ≤ freqBinCount s f →
      renderSpectrogramStep s st f =
        some ⟨List.replicate waterfallHeight
          (List.replicate (freqBinCount s f).toNat (-100)), freqBinCount s f⟩) ∧
    (f.fftData.length ≠ 0 → st.freqBins ≠ freqBinCount s f →
      freqBinCount s f < 0 →
      renderSpectrogramStep s st f = none ∧ waterfallCatchStep s st f = st) := by
  refine ⟨rfl, waterfall_step_length s st f, ?_, ?_, ?_⟩
  · intro evts
    have hfold : ∀ (l : List (VisualizationSettings × Frame)) (w : WaterfallState),
        w.data.length = 0 ∨ w.data.length = waterfallHeight →
        (l.foldl (fun acc e => waterfallCatchStep e.1 acc e.2) w).data.length = 0 ∨
        (l.foldl (fun acc e => waterfallCatchStep e.1 acc e.2) w).data.length =
          waterfallHeight := by
      intro l
      induction l with
      | nil => intro w hw; exact hw
      | cons e t ih =>
          intro w hw
          exact ih _ (waterfall_step_length e.1 w e.2 hw)
    exact hfold evts initialWaterfall (Or.inl rfl)
  · intro hne hdiff hpos
    unfold renderSpectrogramStep
    rw [if_neg hne]
    simp only
    rw [if_pos (Or.inr hdiff)]
    unfold allocWaterfall
    rw [if_neg (by omega)]
  · intro hne hdiff hneg
    have hstep : renderSpectrogramStep s st f = none := by
      unfold renderSpectrogramStep
      rw [if_neg hne]
      simp only
      rw [if_pos (Or.inr hdiff)]
      unfold allocWaterfall
      rw [if_pos hneg]
    exact ⟨hstep, by rw [waterfallCatchStep, hstep]; rfl⟩

/-- Witness for C2: a concrete shape change from recorded width 0 to
derived width 1 reallocates 200 floor-valued rows of width 1 and drops the
frame. -/
theorem c2_buffer_shape_witness :
    renderSpectrogramStep ⟨0, 200⟩ initialWaterfall ⟨2000, [5], 0⟩ =
      some ⟨List.replicate waterfallHeight
        (List.replicate (freqBinCount ⟨0, 200⟩ ⟨2000, [5], 0⟩).toNat (-100)),
        freqBinCount ⟨0, 200⟩ ⟨2000, [5], 0⟩⟩ ∧
    ((runWaterfall [(⟨0, 200⟩, ⟨2000, [5], 0⟩)]).data.length = 0 ∨
      (runWaterfall [(⟨0, 200⟩, ⟨2000, [5], 0⟩)]).data.length = waterfallHeight) := by
  have hb : freqBinCount ⟨0, 200⟩ ⟨2000, [5], 0⟩ = 1 := by
    norm_num [freqBinCount, maxFreqIndex, minFreqIndex, freqStep]
  refine ⟨(c2_buffer_shape ⟨0, 200⟩ initialWaterfall ⟨2000, [5], 0⟩).2.2.2.1
    (by simp) (by rw [hb]; norm_num [initialWaterfall]) (by rw [hb]; norm_num), ?_⟩
  exact (c2_buffer_shape ⟨0, 200⟩ initialWaterfall ⟨2000, [5], 0⟩).2.2.1
    [(⟨0, 200⟩, ⟨2000, [5], 0⟩)]

/-! ### C4 / C7 — spectrum decimation and peak marker -/

/-- The plot loop runs nothing once the index reaches `maxIdx` (or the
stride is not positive). -/
theorem plotLoop_of_neg (i maxIdx step : ℤ) (h : ¬(0 < step ∧ i < maxIdx)) :
    plotLoop i maxIdx step = [] := by
  unfold plotLoop
  rw [dif_neg h]

/-- One unrolling of the plot loop. -/
theorem plotLoop_of_pos (i maxIdx step : ℤ) (h : 0 < step ∧ i < maxIdx) :
    plotLoop i maxIdx step = i :: plotLoop (i + step) maxIdx step := by
  conv_lhs => unfold plotLoop
  rw [dif_pos h]

/-- Closed form of the plot loop: the arithmetic progression starting at
`i` with the given positive stride, of length `⌈(maxIdx - i) / step⌉`. -/
theorem plotLoop_eq_range (maxIdx step : ℤ) (hstep : 0 < step) :
    ∀ (n : ℕ) (i : ℤ), (maxIdx - i).toNat ≤ n →
    plotLoop i maxIdx step =
      (List.range ((maxIdx - i + step - 1) / step).toNat).map
        (fun k : ℕ => i + (k : ℤ) * step) := by
  intro n
  induction n with
  | zero =>
      intro i hle
      rw [plotLoop_of_neg i maxIdx step (by omega)]
      have hlt : (maxIdx - i + step - 1) / step < 1 :=
        (Int.ediv_lt_iff_lt_mul hstep).mpr (by omega)
      have h0 : ((maxIdx - i + step - 1) / step).toNat = 0 := by omega
      rw [h0]
      simp
  | succ n ih =>
      intro i hle
      by_cases hlt : i < maxIdx
      · rw [plotLoop_of_pos i maxIdx step ⟨hstep, hlt⟩, ih (i + step) (by omega)]
        have harg : maxIdx - (i + step) + step - 1 =
            maxIdx - i + step - 1 + -1 * step := by ring
        rw [harg, Int.add_mul_ediv_right _ _ (by omega : step ≠ 0)]
        have hge : 1 ≤ (maxIdx - i + step - 1) / step :=
          (Int.le_ediv_iff_mul_le hstep).mpr (by omega)
        have hmt : ((maxIdx - i + step - 1) / step).toNat =
            ((maxIdx - i + step - 1) / step + -1).toNat + 1 := by omega
        rw [hmt, List.range_succ_eq_map]
        simp only [List.map_cons, List.map_map, Nat.cast_zero, zero_mul, add_zero,
          List.cons.injEq, true_and]
        apply List.map_congr_left
        intro k _
        simp only [Function.comp_apply, Nat.succ_eq_add_one]
        push_cast
        ring
      · rw [plotLoop_of_neg i maxIdx step (by omega)]
        have hlt2 : (maxIdx - i + step - 1) / step < 1 :=
          (Int.ediv_lt_iff_lt_mul hstep).mpr (by omega)
        have h0 : ((maxIdx - i + step - 1) / step).toNat = 0 := by omega
        rw [h0]
        simp

/-- Length of the plot loop's output. -/
theorem plotLoop_length (i maxIdx step : ℤ) (hstep : 0 < step) :
    (plotLoop i maxIdx step).length = ((maxIdx - i + step - 1) / step).toNat := by
  rw [plotLoop_eq_range maxIdx step hstep (maxIdx - i).toNat i le_rfl]
  simp

/-- Every index the plot loop visits lies in `[i, maxIdx)` at a multiple of
the stride. -/
theorem plotLoop_mem (i maxIdx step : ℤ) (hstep : 0 < step) (j : ℤ)
    (hj : j ∈ plotLoop i maxIdx step) :
    i ≤ j ∧ j < maxIdx ∧ (j - i) % step = 0 := by
  rw [plotLoop_eq_range maxIdx step hstep (maxIdx - i).toNat i le_rfl] at hj
  simp only [List.mem_map, List.mem_range] at hj
  obtain ⟨k, hk, rfl⟩ := hj
  refine ⟨le_add_of_nonneg_right
    (mul_nonneg (Int.natCast_nonneg k) (le_of_lt hstep)), ?_, ?_⟩
  · have hk' : (k : ℤ) + 1 ≤ (maxIdx - i + step - 1) / step := by omega
    have hmul := (Int.le_ediv_iff_mul_le hstep).mp hk'
    nlinarith
  · simp [Int.mul_emod_left]

/-- The decimated point count is below 1600 for every window size, with the
stride the code computes. -/
theorem decimation_count_le (D step : ℤ) (hstep : step = max 1 (D / 800)) :
    ((D + step - 1) / step).toNat ≤ 1599 := by
  have hstep0 : 0 < step := by
    rw [hstep]; exact lt_of_lt_of_le one_pos (le_max_left _ _)
  by_cases hD0 : D ≤ 0
  · have hlt : (D + step - 1) / step < 1 :=
      (Int.ediv_lt_iff_lt_mul hstep0).mpr (by omega)
    omega
  · by_cases hD : D < 800
    · have h800 : D / 800 = 0 := Int.ediv_eq_zero_of_lt (by omega) (by omega)
      rw [h800] at hstep
      simp at hstep
      subst hstep
      rw [Int.ediv_one]
      omega
    · have hq1 : 1 ≤ D / 800 :=
        (Int.le_ediv_iff_mul_le (by norm_num)).mpr (by omega)
      have hsq : step = D / 800 := by rw [hstep]; exact max_eq_right hq1
      have hmod := Int.ediv_add_emod D 800
      have hm0 : 0 ≤ D % 800 := Int.emod_nonneg D (by norm_num)
      have hm1 : D % 800 < 800 := Int.emod_lt_of_pos D (by norm_num)
      have hDle : D ≤ 1599 * step := by omega
      have hlt : (D + step - 1) / step < 1600 :=
        (Int.ediv_lt_iff_lt_mul hstep0).mpr (by omega)
      omega

set_option maxRecDepth 8000 in
/-- Counterexample to C4 as stated: with a committed range covering all
1599 bins of this frame the stride is `max(1, ⌊1599/800⌋) = 1`, so all
1599 points are plotted — roughly double the claimed ~800 cap. -/
theorem c4_counterexample :
    (renderFrequencySpectrum ⟨0, 200⟩ 100 100
      ⟨2000, List.replicate 1599 0, 0⟩).points.length = 1599 ∧ 800 < 1599 := by
  have hmin : minFreqIndex ⟨0, 200⟩ ⟨2000, List.replicate 1599 0, 0⟩ = 0 := by
    norm_num [minFreqIndex, freqStep]
  have hmax : maxFreqIndex ⟨0, 200⟩ ⟨2000, List.replicate 1599 0, 0⟩ = 1599 := by
    norm_num [maxFreqIndex, freqStep]
  have hstride : spectrumStride ⟨0, 200⟩ ⟨2000, List.replicate 1599 0, 0⟩ = 1 := by
    rw [spectrumStride, hmin, hmax]
    norm_num
  refine ⟨?_, by norm_num⟩
  rw [renderFrequencySpectrum, if_neg (by simp)]
  simp only [List.length_map]
  rw [spectrumIndices, plotLoop_length _ _ _ (by rw [hstride]; norm_num),
    hmin, hmax, hstride]
  decide

/-- C4 (amended): the spectrum renderer plots exactly the bin indices of
`[minFreqIndex, maxFreqIndex)` at the integer stride
`max(1, ⌊(maxFreqIndex - minFreqIndex) / 800⌋)`; the number of plotted
points is `⌈(maxFreqIndex - minFreqIndex) / stride⌉`, which is bounded by
1599 — not by ~800: for window sizes in `[800, 1600)` the stride stays 1
and up to 1599 points are drawn. -/
theorem c4_decimation (s : VisualizationSettings) (width height : ℚ)
    (f : Frame) (hne : f.fftData.length ≠ 0) :
    (renderFrequencySpectrum s width height f).points =
      (spectrumIndices s f).map (spectrumPoint s width height f) ∧
    spectrumStride s f = max 1 ((maxFreqIndex s f - minFreqIndex s f) / 800) ∧
    1 ≤ spectrumStride s f ∧
    (∀ j ∈ spectrumIndices s f, minFreqIndex s f ≤ j ∧ j < maxFreqIndex s f ∧
      (j - minFreqIndex s f) % spectrumStride s f = 0) ∧
    (renderFrequencySpectrum s width height f).points.length =
      ((maxFreqIndex s f - minFreqIndex s f + spectrumStride s f - 1) /
        spectrumStride s f).toNat ∧
    (renderFrequencySpectrum s width height f).points.length ≤ 1599 := by
  have hpts : (renderFrequencySpectrum s width height f).points =
      (spectrumIndices s f).map (spectrumPoint s width height f) := by
    rw [renderFrequencySpectrum, if_neg hne]
  have hstep0 : 0 < spectrumStride s f :=
    lt_of_lt_of_le one_pos (le_max_left _ _)
  have hlen : (renderFrequencySpectrum s width height f).points.length =
      ((maxFreqIndex s f - minFreqIndex s f + spectrumStride s f - 1) /
        spectrumStride s f).toNat := by
    rw [hpts, List.length_map, spectrumIndices, plotLoop_length _ _ _ hstep0]
  refine ⟨hpts, rfl, le_max_left _ _,
    fun j hj => plotLoop_mem _ _ _ hstep0 j hj, hlen, ?_⟩
  rw [hlen]
  exact decimation_count_le _ _ rfl

/-- Witness for C4 at a concrete single-bin frame. -/
theorem c4_decimation_witness :
    (renderFrequencySpectrum ⟨0, 200⟩ 100 100 ⟨2000, [5], 0⟩).points.length =
      ((maxFreqIndex ⟨0, 200⟩ ⟨2000, [5], 0⟩ - minFreqIndex ⟨0, 200⟩ ⟨2000, [5], 0⟩ +
        spectrumStride ⟨0, 200⟩ ⟨2000, [5], 0⟩ - 1) /
        spectrumStride ⟨0, 200⟩ ⟨2000, [5], 0⟩).toNat ∧
    (renderFrequencySpectrum ⟨0, 200⟩ 100 100 ⟨2000, [5], 0⟩).points.length ≤ 1599 :=
  ⟨(c4_decimation ⟨0, 200⟩ 100 100 ⟨2000, [5], 0⟩ (by simp)).2.2.2.2.1,
   (c4_decimation ⟨0, 200⟩ 100 100 ⟨2000, [5], 0⟩ (by simp)).2.2.2.2.2⟩

/-- Counterexample to C7 as stated: a frame whose reported peak frequency
is `0` Hz lies inside the committed range `[0, 100]` kHz, yet no marker is
drawn — the code additionally requires `peak_frequency_hz > 0`. -/
theorem c7_counterexample :
    (VisualizationSettings.mk 0 100).minFreqKHz ≤ (0 : ℚ) / 1000 ∧
    (0 : ℚ) / 1000 ≤ (VisualizationSettings.mk 0 100).maxFreqKHz ∧
    (renderFrequencySpectrum ⟨0, 100⟩ 100 100 ⟨2000, [-50], 0⟩).peakMarkerX = none := by
  refine ⟨by norm_num, by norm_num, ?_⟩
  rw [renderFrequencySpectrum, if_neg (by simp)]
  simp only [peakMarker]
  norm_num

/-- C7 (amended): for a decoded frame the dashed peak marker (with its
label) is drawn iff `peak_frequency_hz > 0` AND the peak converted to kHz
lies within the committed `[min, max]`, and when drawn its x position is
`padding + ((peakKHz - min) / (max - min)) * plotWidth`. -/
theorem c7_peak_marker (s : VisualizationSettings) (width height : ℚ)
    (f : Frame) (hne : f.fftData.length ≠ 0) :
    ((renderFrequencySpectrum s width height f).peakMarkerX ≠ none ↔
      0 < f.peakFrequencyHz ∧ s.minFreqKHz ≤ f.peakFrequencyHz / 1000 ∧
        f.peakFrequencyHz / 1000 ≤ s.maxFreqKHz) ∧
    (∀ x, (renderFrequencySpectrum s width height f).peakMarkerX = some x →
      x = 40 + ((f.peakFrequencyHz / 1000 - s.minFreqKHz) /
        (s.maxFreqKHz - s.minFreqKHz)) * (width - 2 * 40)) := by
  rw [renderFrequencySpectrum, if_neg hne]
  simp only [peakMarker]
  constructor
  · split_ifs with h1 h2
    · simp [h1, h2]
    · simp only [ne_eq, not_true_eq_false, false_iff, not_and]
      intro _ hmin hmax
      exact absurd ⟨hmin, hmax⟩ h2
    · simp [h1]
  · intro x hx
    split_ifs at hx with h1 h2
    simpa using hx.symm

/-- Witness for C7: the spec's scenario — a 45 kHz peak with range
`[0, 100]` kHz produces a marker at `x = 40 + 0.45 * 20 = 49` on a
width-100 canvas, and with range `[50, 100]` kHz no marker is drawn. -/
theorem c7_peak_marker_witness :
    (∃ x, (renderFrequencySpectrum ⟨0, 100⟩ 100 100
        ⟨2000, [-50], 45000⟩).peakMarkerX = some x ∧ x = 49) ∧
    (renderFrequencySpectrum ⟨50, 100⟩ 100 100
        ⟨2000, [-50], 45000⟩).peakMarkerX = none := by
  constructor
  · have h := c7_peak_marker ⟨0, 100⟩ 100 100 ⟨2000, [-50], 45000⟩ (by simp)
    have hx := h.1.mpr (by norm_num)
    rcases hm : (renderFrequencySpectrum ⟨0, 100⟩ 100 100
        ⟨2000, [-50], 45000⟩).peakMarkerX with _ | x
    · exact absurd hm hx
    · refine ⟨x, rfl, ?_⟩
      have hval := h.2 x hm
      rw [hval]
      norm_num
  · have h := c7_peak_marker ⟨50, 100⟩ 100 100 ⟨2000, [-50], 45000⟩ (by simp)
    rcases hm : (renderFrequencySpectrum ⟨50, 100⟩ 100 100
        ⟨2000, [-50], 45000⟩).peakMarkerX with _ | x
    · rfl
    · exfalso
      have hcond := h.1.mp (by rw [hm]; simp)
      norm_num at hcond

end CrowdSonic
